import Mathlib

/-!
Shallow embedding of the WebSocket transport of the engine.io transport layer
(`src/lib/transports/websocket.ts`) and of the transport factory
(the transports index module, `src/unnamed/part_000`).

The embedding follows the source closely:

* `WSState` holds the fields of the transport instance that `send`, `onSent`
  and `doClose` read or write: `writable`, `perMessageDeflate`
  (either `none` = null or `some threshold`), whether
  `socket._sender.sendFrame` is a function, and `supportsBinary`.
* A call `socket.send(data, opts, cb)` or `socket._sender.sendFrame(frame, cb)`
  performed by the dispatch loop is recorded as a `WireAction`; whether the
  codec (`this.parser.encodePacket`) was invoked for a packet is recorded in
  the `codecUsed` flag of the packet's `Dispatch`.
* The completion callbacks created by `send` are recorded as their captured
  `isLast` flag; the asynchronous completion of the underlying channel is
  modelled by running `onSent` over those flags paired with the error value
  (`none` = success) each completion reports, in `runCallbacks`.
* The codec is an external collaborator and appears as a function argument
  `encode : Packet → Bool → WireData`, applied once per packet on the codec
  path, mirroring the contract `encodePacket(packet, supportsBinary, callback)`.
-/

namespace EngineIO

/-- Opaque pre-computed WebSocket frame (`packet.options.wsPreEncodedFrame`);
only its identity matters to the transport, which never inspects it. -/
abbrev Frame := Nat

/-- A wire payload, JS `string | Buffer`. -/
inductive WireData
  | str (s : String)
  | buf (bytes : List Nat)
deriving DecidableEq, Repr

/-- Byte length of a payload as computed inside the `send` closure:
`"string" === typeof data ? Buffer.byteLength(data) : data.length`. -/
def WireData.byteLength : WireData → Nat
  | .str s => s.utf8ByteSize
  | .buf bytes => bytes.length

/-- The option fields of a packet that this transport reads
(`compress`, `wsPreEncoded`, `wsPreEncodedFrame`); `none` models the field
being absent or `undefined`, and `wsPreEncoded = some s` models
`typeof packet.options.wsPreEncoded === "string"` holding with value `s`. -/
structure PacketOptions where
  compress : Option Bool := none
  wsPreEncoded : Option String := none
  wsPreEncodedFrame : Option Frame := none
deriving DecidableEq, Repr

/-- A packet handed to `send`: a payload (opaque to this transport, only the
codec reads it) and an optional options record. -/
structure Packet where
  data : WireData
  options : Option PacketOptions := none
deriving DecidableEq, Repr

/-- The transport-instance fields read or written by `send`, `onSent` and
`doClose` in `src/lib/transports/websocket.ts`. -/
structure WSState where
  writable : Bool
  perMessageDeflate : Option Nat
  senderHasSendFrame : Bool
  supportsBinary : Bool
deriving DecidableEq, Repr

/-- One write invocation received by the underlying channel: either
`socket.send(data, opts, cb)` with the effective `compress` field of the
per-packet options object, or `socket._sender.sendFrame(frame, cb)`. -/
inductive WireAction
  | socketSend (data : WireData) (compress : Option Bool)
  | sendFrame (frame : Frame)
deriving DecidableEq, Repr

/-- Observable notifications emitted by the transport:
`this.emit("drain")` and the error-reporting path `this.onError(msg, desc)`. -/
inductive Event
  | drain
  | error (msg : String) (desc : String)
deriving DecidableEq, Repr

/-- What the dispatch loop does for one packet: the single write invocation
handed to the channel, and whether `this.parser.encodePacket` was invoked. -/
structure Dispatch where
  action : WireAction
  codecUsed : Bool
deriving DecidableEq, Repr

/-- Modelled from the spec: `Transport.onError` of the shared base transport
class (`lib/transport.ts`, not among the sources) routes a failure to the
error-reporting path as an observable "error" notification to the upper
layer; it does not touch `writable`. -/
def onError (msg : String) (desc : String) (st : WSState) : WSState × List Event :=
  (st, [Event.error msg desc])

/-- The completion callback `onSent` created by `send` for one packet:
on error, `return this.onError("write error", err.stack)`; on success of the
last packet of the batch, `this.writable = true; this.emit("drain")`. -/
def onSent (isLast : Bool) (err : Option String) (st : WSState) : WSState × List Event :=
  match err with
  | some stack => onError "write error" stack st
  | none =>
    if isLast then ({ st with writable := true }, [Event.drain])
    else (st, [])

/-- The `send` closure created by `send` for one packet: if
`this.perMessageDeflate` is set and the payload's byte length is below the
threshold, `opts.compress = false`; then `this.socket.send(data, opts, onSent)`. -/
def sendData (st : WSState) (optsCompress : Option Bool) (data : WireData) : WireAction :=
  let compress : Option Bool :=
    match st.perMessageDeflate with
    | some threshold =>
      if data.byteLength < threshold then some false else optsCompress
    | none => optsCompress
  WireAction.socketSend data compress

/-- `WebSocket._canSendPreEncodedFrame(packet)`: compression disabled,
`socket._sender.sendFrame` is a function, and
`packet.options?.wsPreEncodedFrame !== undefined`. -/
def _canSendPreEncodedFrame (st : WSState) (packet : Packet) : Bool :=
  st.perMessageDeflate.isNone &&
  st.senderHasSendFrame &&
  (packet.options.bind (fun o => o.wsPreEncodedFrame)).isSome

/-- The body of the `for` loop of `WebSocket.send` for one packet: builds the
fresh per-packet options object (copying `compress` when `packet.options`
exists), then dispatches in priority order: the `wsPreEncoded` string branch,
the pre-encoded frame branch, and the codec branch
`this.parser.encodePacket(packet, this.supportsBinary, send)`. -/
def dispatchPacket (st : WSState) (encode : Packet → Bool → WireData)
    (packet : Packet) : Dispatch :=
  let optsCompress : Option Bool :=
    match packet.options with
    | some o => o.compress
    | none => none
  match packet.options.bind (fun o => o.wsPreEncoded) with
  | some s => { action := sendData st optsCompress (WireData.str s), codecUsed := false }
  | none =>
    if _canSendPreEncodedFrame st packet then
      { action := WireAction.sendFrame
          ((packet.options.bind (fun o => o.wsPreEncodedFrame)).getD 0),
        codecUsed := false }
    else
      { action := sendData st optsCompress (encode packet st.supportsBinary),
        codecUsed := true }

/-- The `for (let i = 0; i < packets.length; i++)` loop of `WebSocket.send`:
for each packet, its dispatch together with the `isLast = i + 1 ===
packets.length` flag captured by that packet's completion callback. -/
def sendLoop (st : WSState) (encode : Packet → Bool → WireData) (total : Nat) :
    Nat → List Packet → List (Dispatch × Bool)
  | _, [] => []
  | i, packet :: rest =>
    (dispatchPacket st encode packet, i + 1 == total) ::
      sendLoop st encode total (i + 1) rest

/-- `WebSocket.send(packets)`: sets `this.writable = false`, then runs the
dispatch loop over the packets in order. Returns the state as it is when
`send` returns, together with the per-packet dispatches and the `isLast`
flags of the pending completion callbacks, in packet order. -/
def send (st : WSState) (encode : Packet → Bool → WireData)
    (packets : List Packet) : WSState × List (Dispatch × Bool) :=
  let st' : WSState := { st with writable := false }
  (st', sendLoop st' encode packets.length 0 packets)

/-- Completion of a batch: the underlying channel fires each pending
completion callback (identified by its captured `isLast` flag) with the error
value it reports (`none` = success), in the given order; the events emitted
by all callbacks are concatenated in firing order. -/
def runCallbacks : WSState → List (Bool × Option String) → WSState × List Event
  | st, [] => (st, [])
  | st, (isLast, err) :: rest =>
    let r := onSent isLast err st
    let r' := runCallbacks r.1 rest
    (r'.1, r.2 ++ r'.2)

/-- The `isLast` flags of a batch of `n` packets, in packet order:
`false` everywhere except at the last position. -/
def lastFlags : Nat → List Bool
  | 0 => []
  | n + 1 => (n == 0) :: lastFlags n

/-- Observable steps of `WebSocket.doClose`. -/
inductive CloseAction
  | socketClose
  | callback
deriving DecidableEq, Repr

/-- `WebSocket.doClose(fn)`: `this.socket.close(); fn && fn();` — the trace
of observable steps, in order, given whether a callback `fn` was supplied.
The adapter's own later "close" event plays no part in this function. -/
def doClose (fnProvided : Bool) : List CloseAction :=
  [CloseAction.socketClose] ++ (if fnProvided then [CloseAction.callback] else [])

/-- A query-attribute value as seen through `typeof`: either a string, or
some present non-string value (for example an array produced by the query
parsing layer). -/
inductive QueryValue
  | str (s : String)
  | nonString
deriving DecidableEq, Repr

/-- The part of the parsed query the polling factory reads: the attribute
`j` (absent = `none`). -/
structure Query where
  j : Option QueryValue := none
deriving DecidableEq, Repr

/-- The part of the incoming request the polling factory reads. -/
structure PreparedIncomingMessage where
  _query : Query
deriving DecidableEq, Repr

/-- The closed set of polling transport variants the factory can construct,
each carrying the request it was constructed with: the JSON-with-padding
variant (`JSONP`) and the plain long-polling variant (`XHR`). Both classes
are external collaborators; only which one is constructed, and with which
request, is modelled. -/
inductive PollingTransport
  | JSONP (req : PreparedIncomingMessage)
  | XHR (req : PreparedIncomingMessage)
deriving DecidableEq, Repr

/-- The polymorphic `polling` constructor of the transports index:
`if ("string" === typeof req._query.j) return new JSONP(req); else return new
XHR(req);`. A pure function of the request it is applied to, so the dispatch
is re-evaluated at every invocation and cannot be cached. -/
def polling (req : PreparedIncomingMessage) : PollingTransport :=
  match req._query.j with
  | some (QueryValue.str _) => PollingTransport.JSONP req
  | _ => PollingTransport.XHR req

/-! Helper lemmas about the embedding. -/

/-- A completion callback changes `writable` to true exactly when it reports
success and carries the `isLast` flag; it never resets `writable` to false. -/
theorem onSent_writable (isLast : Bool) (err : Option String) (st : WSState) :
    (onSent isLast err st).1.writable = (st.writable || (err.isNone && isLast)) := by
  cases err <;> cases isLast <;> simp [onSent, onError]

/-- After firing a sequence of completion callbacks, `writable` is true iff
it already was, or some fired callback reported success and was the batch's
last one. -/
theorem runCallbacks_writable (fires : List (Bool × Option String)) (st : WSState) :
    (runCallbacks st fires).1.writable =
      (st.writable || fires.any (fun f => f.2.isNone && f.1)) := by
  induction fires generalizing st with
  | nil => simp [runCallbacks]
  | cons f rest ih =>
    obtain ⟨isLast, err⟩ := f
    simp [runCallbacks, ih, onSent_writable, Bool.or_assoc]

/-- The number of "drain" notifications emitted by a sequence of completion
callbacks equals the number of fired callbacks that reported success while
carrying the `isLast` flag. -/
theorem runCallbacks_count_drain (fires : List (Bool × Option String)) (st : WSState) :
    (runCallbacks st fires).2.count Event.drain =
      fires.countP (fun f => f.2.isNone && f.1) := by
  induction fires generalizing st with
  | nil => simp [runCallbacks]
  | cons f rest ih =>
    obtain ⟨isLast, err⟩ := f
    cases err <;> cases isLast <;>
      simp [runCallbacks, onSent, onError, ih, List.count_append, List.countP_cons]

/-- A fired completion callback that reported an error contributes an
observable "write error" notification. -/
theorem error_mem_runCallbacks (fires : List (Bool × Option String)) (st : WSState)
    (stack : String) (b : Bool) (hmem : (b, some stack) ∈ fires) :
    Event.error "write error" stack ∈ (runCallbacks st fires).2 := by
  induction fires generalizing st with
  | nil => simp at hmem
  | cons f rest ih =>
    obtain ⟨isLast, err⟩ := f
    rcases List.mem_cons.mp hmem with h | h
    · obtain ⟨h1, h2⟩ := Prod.mk.injEq .. ▸ h.symm
      subst h1; subst h2
      simp [runCallbacks, onSent, onError]
    · have step : (runCallbacks st ((isLast, err) :: rest)).2 =
          (onSent isLast err st).2 ++ (runCallbacks (onSent isLast err st).1 rest).2 := rfl
      rw [step]
      exact List.mem_append_right _ (ih (onSent isLast err st).1 h)

/-- The dispatches of the loop are the packet-wise dispatches, in order. -/
theorem sendLoop_map_fst (st : WSState) (encode : Packet → Bool → WireData)
    (total : Nat) (packets : List Packet) (i : Nat) :
    (sendLoop st encode total i packets).map Prod.fst =
      packets.map (dispatchPacket st encode) := by
  induction packets generalizing i with
  | nil => simp [sendLoop]
  | cons p rest ih => simp [sendLoop, ih]

/-- `lastFlags n` has length `n`. -/
theorem lastFlags_length (n : Nat) : (lastFlags n).length = n := by
  induction n with
  | zero => simp [lastFlags]
  | succ m ih => simp [lastFlags, ih]

/-- The `isLast` flags produced by the loop started at index `i` with total
`i + packets.length` are false everywhere except at the last position. -/
theorem sendLoop_map_snd (st : WSState) (encode : Packet → Bool → WireData)
    (packets : List Packet) (i : Nat) :
    (sendLoop st encode (i + packets.length) i packets).map Prod.snd =
      lastFlags packets.length := by
  induction packets generalizing i with
  | nil => simp [sendLoop, lastFlags]
  | cons p rest ih =>
    have htot : i + (p :: rest).length = (i + 1) + rest.length := by
      simp [List.length_cons]; omega
    have hflag : (i + 1 == i + (p :: rest).length) = (rest.length == 0) := by
      rw [Bool.eq_iff_iff]
      simp only [beq_iff_eq, List.length_cons]
      omega
    calc (sendLoop st encode (i + (p :: rest).length) i (p :: rest)).map Prod.snd
        = (i + 1 == i + (p :: rest).length) ::
            (sendLoop st encode ((i + 1) + rest.length) (i + 1) rest).map Prod.snd := by
          rw [← htot]; simp [sendLoop]
      _ = (rest.length == 0) :: lastFlags rest.length := by rw [hflag, ih]
      _ = lastFlags (p :: rest).length := by simp [lastFlags, List.length_cons]

/-- The per-packet part of `send`: dispatches in packet order. -/
theorem send_snd_map_fst (st : WSState) (encode : Packet → Bool → WireData)
    (packets : List Packet) :
    ((send st encode packets).2).map Prod.fst =
      packets.map (dispatchPacket { st with writable := false } encode) := by
  simp [send, sendLoop_map_fst]

/-- The `isLast` flags of the batch's pending completion callbacks. -/
theorem send_snd_map_snd (st : WSState) (encode : Packet → Bool → WireData)
    (packets : List Packet) :
    ((send st encode packets).2).map Prod.snd = lastFlags packets.length := by
  have h := sendLoop_map_snd { st with writable := false } encode packets 0
  simpa [send] using h

/-- Scanning any prefix of the batch's callback results, some fired callback
was the successful last one iff the prefix covers the whole batch and the
last result is a success. -/
theorem lastFlags_zip_take_any (errs : List (Option String)) (k : Nat) :
    ((((lastFlags errs.length).zip errs).take k).any (fun f => f.2.isNone && f.1)) =
      (decide (errs.length ≤ k) && decide (errs.getLast? = some none)) := by
  induction errs generalizing k with
  | nil => simp [lastFlags]
  | cons e rest ih =>
    cases rest with
    | nil =>
      cases k with
      | zero => simp [lastFlags]
      | succ k' => cases e <;> simp [lastFlags]
    | cons r rs =>
      cases k with
      | zero => simp [lastFlags]
      | succ k' =>
        have hh := ih k'
        simp only [List.length_cons, lastFlags, List.zip_cons_cons, List.take_succ_cons,
          List.any_cons, List.getLast?_cons_cons] at hh ⊢
        have h2 : (decide (rs.length + 1 + 1 ≤ k' + 1)) = (decide (rs.length + 1 ≤ k')) := by
          rw [Bool.eq_iff_iff]; simp only [decide_eq_true_eq]; omega
        simp only [show ((rs.length + 1 : Nat) == 0) = false from rfl, Bool.and_false,
          Bool.false_or, h2]
        exact hh

/-- Over the whole batch, the number of successful last-callback firings is
one if the last result is a success and zero otherwise. -/
theorem lastFlags_zip_countP (errs : List (Option String)) :
    ((lastFlags errs.length).zip errs).countP (fun f => f.2.isNone && f.1) =
      (if errs.getLast? = some none then 1 else 0) := by
  induction errs with
  | nil => simp [lastFlags]
  | cons e rest ih =>
    cases rest with
    | nil => cases e <;> simp [lastFlags, List.countP_cons]
    | cons r rs =>
      simp only [List.length_cons, lastFlags, List.zip_cons_cons, List.countP_cons] at ih ⊢
      rw [List.getLast?_cons_cons]
      simpa using ih

/-- Any element of the right list of a zip appears paired with some element
of a long-enough left list. -/
theorem mem_zip_right (flags : List Bool) (errs : List (Option String))
    (e : Option String) (hmem : e ∈ errs) (hlen : errs.length ≤ flags.length) :
    ∃ b, (b, e) ∈ flags.zip errs := by
  induction errs generalizing flags with
  | nil => simp at hmem
  | cons x rest ih =>
    cases flags with
    | nil => simp at hlen
    | cons b bs =>
      rcases List.mem_cons.mp hmem with h | h
      · exact ⟨b, by simp [h]⟩
      · obtain ⟨b', hb'⟩ := ih bs h (by simpa using Nat.le_of_succ_le_succ hlen)
        exact ⟨b', List.mem_cons_of_mem _ hb'⟩

/-! Concrete instances used by the witness theorems. -/

/-- A transport state with compression disabled and no raw-frame capability. -/
def wsPlain : WSState :=
  { writable := true, perMessageDeflate := none,
    senderHasSendFrame := false, supportsBinary := false }

/-- A transport state with compression disabled and a raw-frame-capable sender. -/
def wsRawCapable : WSState :=
  { writable := true, perMessageDeflate := none,
    senderHasSendFrame := true, supportsBinary := false }

/-- A transport state with compression enabled at threshold 1024. -/
def wsDeflate1024 : WSState :=
  { writable := true, perMessageDeflate := some 1024,
    senderHasSendFrame := true, supportsBinary := false }

/-- A concrete codec: encodes a packet as its raw payload. -/
def encId : Packet → Bool → WireData := fun p _ => p.data

/-- A plain packet with no options. -/
def pktA : Packet := { data := WireData.str "a" }

/-- Another plain packet with no options. -/
def pktB : Packet := { data := WireData.str "b" }

/-! Theorems settling the claims. -/

/-- C1: for every call to `send(packets)`, `writable` is false immediately
upon invocation, and, firing the batch's completion callbacks in order with
any per-packet error results, after any number `k` of them `writable` is
true exactly when the whole batch has completed and the last packet's
callback reported success; in particular it does not become true when the
last packet's callback reports an error. -/
theorem send_writable_false_until_last_success (st : WSState)
    (encode : Packet → Bool → WireData) (packets : List Packet)
    (errs : List (Option String)) (hlen : errs.length = packets.length) (k : Nat) :
    (send st encode packets).1.writable = false ∧
    ((runCallbacks (send st encode packets).1
        ((((send st encode packets).2.map Prod.snd).zip errs).take k)).1.writable = true ↔
      (packets.length ≤ k ∧ errs.getLast? = some none)) := by
  have h1 : (send st encode packets).1.writable = false := rfl
  refine ⟨h1, ?_⟩
  rw [runCallbacks_writable, h1, send_snd_map_snd, ← hlen, lastFlags_zip_take_any]
  simp [hlen]

/-- Witness for C1 at a concrete batch of two packets whose last callback
reports an error: `writable` stays false. -/
theorem send_writable_false_until_last_success_witness :
    ([none, some "boom"] : List (Option String)).length = [pktA, pktB].length ∧
    ((send wsPlain encId [pktA, pktB]).1.writable = false ∧
      ((runCallbacks (send wsPlain encId [pktA, pktB]).1
          ((((send wsPlain encId [pktA, pktB]).2.map Prod.snd).zip
            ([none, some "boom"] : List (Option String))).take 2)).1.writable = true ↔
        ([pktA, pktB].length ≤ 2 ∧
          ([none, some "boom"] : List (Option String)).getLast? = some none))) :=
  ⟨by decide, send_writable_false_until_last_success wsPlain encId [pktA, pktB]
    [none, some "boom"] (by decide) 2⟩

/-- C2: `send` hands the underlying channel exactly one write invocation per
packet (counting `socket.send` of codec output, `socket.send` of a verbatim
pre-encoded string, and `sendFrame` raw-frame injections), in packet order:
the list of wire actions is the packet-wise dispatch of the input sequence,
and its length equals the number of packets. -/
theorem send_one_write_per_packet_in_order (st : WSState)
    (encode : Packet → Bool → WireData) (packets : List Packet) :
    ((send st encode packets).2.map (fun d => d.1.action)) =
      packets.map (fun p => (dispatchPacket { st with writable := false } encode p).action) ∧
    (send st encode packets).2.length = packets.length := by
  have h := send_snd_map_fst st encode packets
  constructor
  · have h2 := congrArg (List.map Dispatch.action) h
    simpa [List.map_map, Function.comp] using h2
  · have h3 := congrArg List.length h
    simpa using h3

/-- C3: for a packet carrying a pre-encoded frame and no pre-encoded string,
with a raw-frame-capable sender: when compression is disabled the frame is
sent through `sendFrame` and the codec is not invoked; when compression is
enabled the same packet goes through the normal serialize-and-send path
(codec invoked, payload handed to `socket.send`). -/
theorem preEncodedFrame_fast_path (st : WSState) (encode : Packet → Bool → WireData)
    (d : WireData) (o : PacketOptions) (f : Frame)
    (hs : st.senderHasSendFrame = true)
    (ho : o.wsPreEncoded = none) (hf : o.wsPreEncodedFrame = some f) :
    (st.perMessageDeflate = none →
      dispatchPacket st encode ⟨d, some o⟩ =
        { action := WireAction.sendFrame f, codecUsed := false }) ∧
    (∀ t, st.perMessageDeflate = some t →
      dispatchPacket st encode ⟨d, some o⟩ =
        { action := sendData st o.compress (encode ⟨d, some o⟩ st.supportsBinary),
          codecUsed := true }) := by
  constructor
  · intro hpmd
    simp [dispatchPacket, _canSendPreEncodedFrame, ho, hf, hs, hpmd]
  · intro t hpmd
    simp [dispatchPacket, _canSendPreEncodedFrame, ho, hf, hs, hpmd]

/-- Witness for C3 at a concrete packet with frame 7: raw injection when
compression is off, codec path when it is on. -/
theorem preEncodedFrame_fast_path_witness :
    (wsRawCapable.senderHasSendFrame = true ∧
      ({ wsPreEncodedFrame := some 7 } : PacketOptions).wsPreEncoded = none ∧
      ({ wsPreEncodedFrame := some 7 } : PacketOptions).wsPreEncodedFrame = some 7) ∧
    (dispatchPacket wsRawCapable encId ⟨WireData.str "a", some { wsPreEncodedFrame := some 7 }⟩ =
      { action := WireAction.sendFrame 7, codecUsed := false }) ∧
    (dispatchPacket wsDeflate1024 encId ⟨WireData.str "a", some { wsPreEncodedFrame := some 7 }⟩ =
      { action := sendData wsDeflate1024 ({ wsPreEncodedFrame := some 7 } : PacketOptions).compress
          (encId ⟨WireData.str "a", some { wsPreEncodedFrame := some 7 }⟩ wsDeflate1024.supportsBinary),
        codecUsed := true }) :=
  ⟨⟨rfl, rfl, rfl⟩,
    (preEncodedFrame_fast_path wsRawCapable encId (WireData.str "a")
      { wsPreEncodedFrame := some 7 } 7 rfl rfl rfl).1 rfl,
    (preEncodedFrame_fast_path wsDeflate1024 encId (WireData.str "a")
      { wsPreEncodedFrame := some 7 } 7 rfl rfl rfl).2 1024 rfl⟩

/-- C4: on the standard send path (no pre-encoded string, so the payload is
the codec output), when compression is enabled and the payload's byte length
is strictly below the threshold, the `compress` option handed to
`socket.send` is false, whatever the packet's own options requested. -/
theorem compress_forced_false_below_threshold (st : WSState)
    (encode : Packet → Bool → WireData) (p : Packet) (t : Nat)
    (hpmd : st.perMessageDeflate = some t)
    (hpre : p.options.bind (fun o => o.wsPreEncoded) = none)
    (hlen : (encode p st.supportsBinary).byteLength < t) :
    (dispatchPacket st encode p).action =
      WireAction.socketSend (encode p st.supportsBinary) (some false) := by
  simp [dispatchPacket, _canSendPreEncodedFrame, hpmd, hpre, sendData, hlen]

/-- Witness for C4: threshold 1024, payload "hello" of byte length 5, packet
requesting `compress: true`; the effective compress is false. -/
theorem compress_forced_false_below_threshold_witness :
    (wsDeflate1024.perMessageDeflate = some 1024 ∧
      (Packet.options ⟨WireData.str "hello", some { compress := some true }⟩).bind
        (fun o => o.wsPreEncoded) = none ∧
      (encId ⟨WireData.str "hello", some { compress := some true }⟩
        wsDeflate1024.supportsBinary).byteLength < 1024) ∧
    (dispatchPacket wsDeflate1024 encId
        ⟨WireData.str "hello", some { compress := some true }⟩).action =
      WireAction.socketSend
        (encId ⟨WireData.str "hello", some { compress := some true }⟩
          wsDeflate1024.supportsBinary) (some false) :=
  ⟨⟨rfl, rfl, by decide⟩,
    compress_forced_false_below_threshold wsDeflate1024 encId
      ⟨WireData.str "hello", some { compress := some true }⟩ 1024 rfl rfl (by decide)⟩

/-- C5: a packet whose `options.wsPreEncoded` is a string is transmitted as
exactly that string through `socket.send`, the codec is not invoked, and
this holds whatever the compression configuration, sender capability and
`wsPreEncodedFrame` field are — the string branch has priority over both the
raw-frame fast path and the codec path. -/
theorem wsPreEncoded_sent_verbatim (st : WSState) (encode : Packet → Bool → WireData)
    (d : WireData) (o : PacketOptions) (s : String)
    (hpre : o.wsPreEncoded = some s) :
    (dispatchPacket st encode ⟨d, some o⟩).codecUsed = false ∧
    ∃ c, (dispatchPacket st encode ⟨d, some o⟩).action =
        WireAction.socketSend (WireData.str s) c := by
  constructor
  · simp [dispatchPacket, hpre]
  · rcases hpmd : st.perMessageDeflate with _ | t
    · exact ⟨o.compress, by simp [dispatchPacket, hpre, sendData, hpmd]⟩
    · by_cases hlt : (WireData.str s).byteLength < t
      · exact ⟨some false, by simp [dispatchPacket, hpre, sendData, hpmd, hlt]⟩
      · exact ⟨o.compress, by simp [dispatchPacket, hpre, sendData, hpmd, hlt]⟩

/-- Witness for C5: a packet carrying both the string "X" and a raw frame,
on a raw-capable uncompressed transport: "X" is sent verbatim. -/
theorem wsPreEncoded_sent_verbatim_witness :
    ({ wsPreEncoded := some "X", wsPreEncodedFrame := some 3 } : PacketOptions).wsPreEncoded =
      some "X" ∧
    (dispatchPacket wsRawCapable encId
        ⟨WireData.str "a", some { wsPreEncoded := some "X", wsPreEncodedFrame := some 3 }⟩).codecUsed =
      false ∧
    ∃ c, (dispatchPacket wsRawCapable encId
        ⟨WireData.str "a", some { wsPreEncoded := some "X", wsPreEncodedFrame := some 3 }⟩).action =
      WireAction.socketSend (WireData.str "X") c :=
  ⟨rfl,
    (wsPreEncoded_sent_verbatim wsRawCapable encId (WireData.str "a")
      { wsPreEncoded := some "X", wsPreEncodedFrame := some 3 } "X" rfl).1,
    (wsPreEncoded_sent_verbatim wsRawCapable encId (WireData.str "a")
      { wsPreEncoded := some "X", wsPreEncodedFrame := some 3 } "X" rfl).2⟩

/-- C6: over a whole batch whose completion callbacks fire once each, in
order, with any per-packet error results, the "drain" notification is
emitted at most once, and it is emitted exactly once precisely when the
final packet's callback reports success. -/
theorem drain_at_most_once_only_on_last_success (st : WSState)
    (encode : Packet → Bool → WireData) (packets : List Packet)
    (errs : List (Option String)) (hlen : errs.length = packets.length) :
    ((runCallbacks (send st encode packets).1
        (((send st encode packets).2.map Prod.snd).zip errs)).2.count Event.drain ≤ 1) ∧
    (((runCallbacks (send st encode packets).1
        (((send st encode packets).2.map Prod.snd).zip errs)).2.count Event.drain = 1) ↔
      errs.getLast? = some none) := by
  have hc : (runCallbacks (send st encode packets).1
      (((send st encode packets).2.map Prod.snd).zip errs)).2.count Event.drain =
        (if errs.getLast? = some none then 1 else 0) := by
    rw [runCallbacks_count_drain, send_snd_map_snd, ← hlen, lastFlags_zip_countP]
  rw [hc]
  constructor
  · split <;> omega
  · split <;> simp_all

/-- Witness for C6 at a concrete successful batch of two packets: exactly
one "drain". -/
theorem drain_at_most_once_only_on_last_success_witness :
    ([none, none] : List (Option String)).length = [pktA, pktB].length ∧
    ((runCallbacks (send wsPlain encId [pktA, pktB]).1
        (((send wsPlain encId [pktA, pktB]).2.map Prod.snd).zip
          ([none, none] : List (Option String)))).2.count Event.drain ≤ 1) ∧
    (((runCallbacks (send wsPlain encId [pktA, pktB]).1
        (((send wsPlain encId [pktA, pktB]).2.map Prod.snd).zip
          ([none, none] : List (Option String)))).2.count Event.drain = 1) ↔
      ([none, none] : List (Option String)).getLast? = some none) :=
  ⟨by decide,
    (drain_at_most_once_only_on_last_success wsPlain encId [pktA, pktB]
      [none, none] (by decide)).1,
    (drain_at_most_once_only_on_last_success wsPlain encId [pktA, pktB]
      [none, none] (by decide)).2⟩

/-- C7: the polymorphic `polling` constructor dispatches on the request's
query attribute `j` at each invocation: if `j` is a string it constructs the
JSON-with-padding variant with that request, otherwise (absent or
non-string) the plain long-polling variant with that request. -/
theorem polling_dispatches_on_j (req : PreparedIncomingMessage) :
    ((∃ s, req._query.j = some (QueryValue.str s)) →
      polling req = PollingTransport.JSONP req) ∧
    ((¬ ∃ s, req._query.j = some (QueryValue.str s)) →
      polling req = PollingTransport.XHR req) := by
  constructor
  · rintro ⟨s, hs⟩
    simp [polling, hs]
  · intro h
    rcases hj : req._query.j with _ | v
    · simp [polling, hj]
    · cases v with
      | str s => exact absurd ⟨s, hj⟩ h
      | nonString => simp [polling, hj]

/-- Witness for C7: a request with `j = "3"` yields the padding variant, a
request without `j` yields the plain variant. -/
theorem polling_dispatches_on_j_witness :
    (∃ s, ({ _query := { j := some (QueryValue.str "3") } } :
        PreparedIncomingMessage)._query.j = some (QueryValue.str s)) ∧
    polling { _query := { j := some (QueryValue.str "3") } } =
      PollingTransport.JSONP { _query := { j := some (QueryValue.str "3") } } ∧
    polling { _query := { j := none } } =
      PollingTransport.XHR { _query := { j := none } } :=
  ⟨⟨"3", rfl⟩,
    (polling_dispatches_on_j { _query := { j := some (QueryValue.str "3") } }).1 ⟨"3", rfl⟩,
    (polling_dispatches_on_j { _query := { j := none } }).2 (by simp)⟩

/-- C8: `doClose(fn)` invokes the adapter's `close()` exactly once, invokes
the callback exactly once when one was supplied (and never otherwise), and
the callback invocation follows `close()` synchronously: the whole trace is
`close` then, if supplied, the callback — with no dependence on the
adapter's own later "close" event, which `doClose` does not consult. -/
theorem doClose_closes_once_then_calls_back (fnProvided : Bool) :
    (doClose fnProvided).count CloseAction.socketClose = 1 ∧
    (doClose fnProvided).count CloseAction.callback = (if fnProvided then 1 else 0) ∧
    doClose fnProvided = CloseAction.socketClose ::
      (if fnProvided then [CloseAction.callback] else []) := by
  cases fnProvided <;> refine ⟨?_, ?_, rfl⟩ <;> decide

/-- C9: with the batch's completion callbacks firing once each in order, an
error reported by a non-final packet's callback does not shorten the batch
(every packet still gets its write invocation), is routed to the error path
as a "write error" notification, and a successful completion of the final
packet still sets `writable` to true and emits "drain" exactly once. -/
theorem midBatch_error_nonfatal (st : WSState) (encode : Packet → Bool → WireData)
    (packets : List Packet) (errs : List (Option String)) (stack : String)
    (hlen : errs.length = packets.length)
    (hmem : some stack ∈ errs.dropLast)
    (hlast : errs.getLast? = some none) :
    (send st encode packets).2.length = packets.length ∧
    Event.error "write error" stack ∈
      (runCallbacks (send st encode packets).1
        (((send st encode packets).2.map Prod.snd).zip errs)).2 ∧
    (runCallbacks (send st encode packets).1
        (((send st encode packets).2.map Prod.snd).zip errs)).1.writable = true ∧
    (runCallbacks (send st encode packets).1
        (((send st encode packets).2.map Prod.snd).zip errs)).2.count Event.drain = 1 := by
  have hflags : ((send st encode packets).2.map Prod.snd) = lastFlags packets.length :=
    send_snd_map_snd st encode packets
  have hflen : ((send st encode packets).2.map Prod.snd).length = errs.length := by
    rw [hflags, lastFlags_length, hlen]
  refine ⟨?_, ?_, ?_, ?_⟩
  · have h3 := congrArg List.length (send_snd_map_fst st encode packets)
    simpa using h3
  · obtain ⟨b, hb⟩ := mem_zip_right ((send st encode packets).2.map Prod.snd) errs
      (some stack) (List.dropLast_subset errs hmem) (le_of_eq hflen.symm)
    exact error_mem_runCallbacks _ _ stack b hb
  · rw [runCallbacks_writable]
    have hfull : ((send st encode packets).2.map Prod.snd).zip errs =
        (((send st encode packets).2.map Prod.snd).zip errs).take errs.length := by
      rw [List.take_of_length_le]
      rw [List.length_zip, hflen]
      exact Nat.min_le_right _ _
    rw [hfull, hflags, ← hlen, lastFlags_zip_take_any]
    simp [hlast]
  · rw [runCallbacks_count_drain, hflags, ← hlen, lastFlags_zip_countP]
    simp [hlast]

/-- Witness for C9: three packets, the first callback errors, the last
succeeds; all three writes happen, the error is reported, and the batch
still drains. -/
theorem midBatch_error_nonfatal_witness :
    (([some "boom", none, none] : List (Option String)).length =
        [pktA, pktB, pktA].length ∧
      some "boom" ∈ ([some "boom", none, none] : List (Option String)).dropLast ∧
      ([some "boom", none, none] : List (Option String)).getLast? = some none) ∧
    ((send wsPlain encId [pktA, pktB, pktA]).2.length = [pktA, pktB, pktA].length ∧
      Event.error "write error" "boom" ∈
        (runCallbacks (send wsPlain encId [pktA, pktB, pktA]).1
          (((send wsPlain encId [pktA, pktB, pktA]).2.map Prod.snd).zip
            ([some "boom", none, none] : List (Option String)))).2 ∧
      (runCallbacks (send wsPlain encId [pktA, pktB, pktA]).1
          (((send wsPlain encId [pktA, pktB, pktA]).2.map Prod.snd).zip
            ([some "boom", none, none] : List (Option String)))).1.writable = true ∧
      (runCallbacks (send wsPlain encId [pktA, pktB, pktA]).1
          (((send wsPlain encId [pktA, pktB, pktA]).2.map Prod.snd).zip
            ([some "boom", none, none] : List (Option String)))).2.count Event.drain = 1) :=
  ⟨⟨by decide, by decide, by decide⟩,
    midBatch_error_nonfatal wsPlain encId [pktA, pktB, pktA]
      [some "boom", none, none] "boom" (by decide) (by decide) (by decide)⟩

/-- C10: the verbatim pre-encoded-string branch goes through the same `send`
closure as codec output, so the compression-threshold override applies to
it: with compression enabled and the string's byte length strictly below the
threshold, the `compress` option handed to `socket.send` is false. -/
theorem wsPreEncoded_compress_threshold (st : WSState)
    (encode : Packet → Bool → WireData) (d : WireData) (o : PacketOptions)
    (s : String) (t : Nat)
    (hpre : o.wsPreEncoded = some s)
    (hpmd : st.perMessageDeflate = some t)
    (hlen : (WireData.str s).byteLength < t) :
    (dispatchPacket st encode ⟨d, some o⟩).action =
      WireAction.socketSend (WireData.str s) (some false) := by
  simp [dispatchPacket, hpre, sendData, hpmd, hlen]

/-- Witness for C10: threshold 1024, pre-encoded string "X" of byte length
1, packet requesting `compress: true`; the effective compress is false. -/
theorem wsPreEncoded_compress_threshold_witness :
    (({ compress := some true, wsPreEncoded := some "X" } : PacketOptions).wsPreEncoded =
        some "X" ∧
      wsDeflate1024.perMessageDeflate = some 1024 ∧
      (WireData.str "X").byteLength < 1024) ∧
    (dispatchPacket wsDeflate1024 encId
        ⟨WireData.str "a", some { compress := some true, wsPreEncoded := some "X" }⟩).action =
      WireAction.socketSend (WireData.str "X") (some false) :=
  ⟨⟨rfl, rfl, by decide⟩,
    wsPreEncoded_compress_threshold wsDeflate1024 encId (WireData.str "a")
      { compress := some true, wsPreEncoded := some "X" } "X" 1024 rfl rfl (by decide)⟩

end EngineIO
